import Mathlib

/-!
Verification of the Epsilon GNSS monitor library (`epsilon/` package).

This file shallowly embeds the rolling-buffer primitives (`epsilon/buffers.py`)
and the monitor classes (`epsilon/monitor.py`, `epsilon/filtered_monitor.py`,
`epsilon/ccd_monitor.py`, `epsilon/cn0_threshold_monitor.py`,
`epsilon/cn0_drop_monitor.py`, `epsilon/dual_antenna_distance_monitor.py`)
into Lean and proves properties about them.

Conventions of the embedding:
* Python numbers (times, samples, C/N0 values, thresholds) are embedded as `ℚ`
  (exact arithmetic; the Python code uses floats but every property here is
  about the algorithmic structure, not rounding).
* Python `deque`s are `List`s with the head as the left (oldest) end.
* Code that can raise an exception is embedded in `Except String`, the error
  string naming the Python exception raised.
* `None`-able values are `Option`s.
-/

/-! ## FIFORunningSum (buffers.py lines 29-86)

`append` mirrors the Python code: if the deque is at capacity the element about
to be evicted (`buffer[0]`) is subtracted from the running sum, then the value
is pushed (the bounded deque silently evicts the oldest element) and added to
the sum.  The Python code indexes `buffer[0]` without an emptiness check, so a
buffer constructed with `max_size = 0` would raise `IndexError` there; all
theorems below therefore assume a positive capacity. -/

structure FIFORunningSum where
  buffer : List ℚ
  maxSize : ℕ
  sum : ℚ

def FIFORunningSum.empty (maxSize : ℕ) : FIFORunningSum :=
  ⟨[], maxSize, 0⟩

def FIFORunningSum.append (f : FIFORunningSum) (v : ℚ) : FIFORunningSum :=
  let s := if f.buffer.length = f.maxSize then f.sum - (f.buffer.head?).getD 0 else f.sum
  ⟨(f.buffer ++ [v]).drop (f.buffer.length + 1 - f.maxSize), f.maxSize, s + v⟩

def FIFORunningSum.appendAll (f : FIFORunningSum) (vals : List ℚ) : FIFORunningSum :=
  vals.foldl FIFORunningSum.append f

/-! ## TimedBuffer (buffers.py lines 190-373)

The structure stores the `keep_one_sample_before` constructor argument in the
field `keepOne`, exactly as `__init__` stores it in `self._keep_one`.  Note
that, as in the source, `append` invokes `removeOldSamples` with the literal
default `true` for its `keep_one_before` parameter (the Python call is
`self.remove_old_samples()`, which uses the parameter default rather than
`self._keep_one`). -/

structure TimedBuffer (α : Type) where
  times : List ℚ
  samples : List α
  target : ℚ
  keepOne : Bool

def TimedBuffer.empty (α : Type) (target : ℚ) (keepOne : Bool) : TimedBuffer α :=
  ⟨[], [], target, keepOne⟩

def TimedBuffer.newestTime {α : Type} (b : TimedBuffer α) : ℚ :=
  (b.times.getLast?).getD 0

def TimedBuffer.oldestTime {α : Type} (b : TimedBuffer α) : ℚ :=
  (b.times.head?).getD 0

def TimedBuffer.elapsedTime {α : Type} (b : TimedBuffer α) : ℚ :=
  if b.times.length < 2 then 0 else b.newestTime - b.oldestTime

def TimedBuffer.oldestSample {α : Type} (b : TimedBuffer α) : Option α :=
  b.samples.head?

def TimedBuffer.newestSample {α : Type} (b : TimedBuffer α) : Option α :=
  b.samples.getLast?

/-- `popleft`, as the total function that drops the oldest entry (the Python
method raises `IndexError` on an empty deque; every call site below only
reaches it with a nonempty buffer). -/
def TimedBuffer.popleftT {α : Type} (b : TimedBuffer α) : TimedBuffer α :=
  { b with times := b.times.tail, samples := b.samples.tail }

/-- The number of entries `remove_old_samples` decides to pop: it counts, from
the oldest end and stopping at the first entry at or past
`newest - target_elapsed_time`, the entries strictly older than that boundary,
then decrements by one (saturating at zero, matching `range(0, -1)` being
empty) when `keep_one_before` is set. -/
def TimedBuffer.numStale {α : Type} (b : TimedBuffer α) (keepOneBefore : Bool) : ℕ :=
  if b.times.length < 1 then 0
  else
    let targetTime := b.newestTime - b.target
    let n := (b.times.takeWhile (fun tt => decide (tt < targetTime))).length
    if keepOneBefore then n - 1 else n

def TimedBuffer.removeOldSamples {α : Type} (b : TimedBuffer α) (keepOneBefore : Bool) :
    TimedBuffer α :=
  TimedBuffer.popleftT^[b.numStale keepOneBefore] b

/-- `TimedBuffer.append`: raises `ValueError` when the new time is strictly
before the newest buffered time, otherwise pushes and evicts.  The eviction
call is `self.remove_old_samples()` in the source, i.e. with the parameter
default `keep_one_before=True`; the stored `keepOne` flag is not consulted. -/
def TimedBuffer.append {α : Type} (b : TimedBuffer α) (t : ℚ) (s : α) :
    Except String (TimedBuffer α) :=
  if t < b.newestTime then .error "ValueError"
  else .ok (({ b with times := b.times ++ [t], samples := b.samples ++ [s]
             } : TimedBuffer α).removeOldSamples true)

/-! ## TimedRunningSum (buffers.py lines 376-402)

Subclass of `TimedBuffer` that keeps a running sum; `popleft` subtracts the
oldest sample before delegating and `append` adds the new sample after the
inherited append (whose evictions go through the overridden `popleft`).
The inherited constructor default `keep_one_sample_before=True` is used. -/

structure TimedRunningSum (α : Type) where
  buf : TimedBuffer α
  sum : α

def TimedRunningSum.empty (α : Type) [Zero α] (target : ℚ) : TimedRunningSum α :=
  ⟨TimedBuffer.empty α target true, 0⟩

/-- Total version of `TimedRunningSum.popleft` (Python raises `TypeError` when
the buffer is empty, since `oldest_sample` is `None`). -/
def TimedRunningSum.popleftT {α : Type} [SubtractionMonoid α] (s : TimedRunningSum α) :
    TimedRunningSum α :=
  ⟨s.buf.popleftT, s.sum - (s.buf.samples.head?).getD 0⟩

def TimedRunningSum.popleft {α : Type} [SubtractionMonoid α] (s : TimedRunningSum α) :
    Except String (TimedRunningSum α) :=
  if s.buf.samples.isEmpty then .error "TypeError" else .ok s.popleftT

/-- `TimedRunningSum.append`: the inherited `TimedBuffer.append` (push, then
evict `numStale` oldest entries, each eviction going through the overridden
`popleft` so the running sum is adjusted), then `sum += sample`. -/
def TimedRunningSum.append {α : Type} [SubtractionMonoid α] (s : TimedRunningSum α)
    (t : ℚ) (x : α) : Except String (TimedRunningSum α) :=
  if t < s.buf.newestTime then .error "ValueError"
  else
    let pushed : TimedBuffer α :=
      { s.buf with times := s.buf.times ++ [t], samples := s.buf.samples ++ [x] }
    let st := TimedRunningSum.popleftT^[pushed.numStale true] ⟨pushed, s.sum⟩
    .ok ⟨st.buf, st.sum + x⟩

/-- An operation on a `TimedRunningSum`, for stating trace properties. -/
inductive TRSOp where
  | append (t x : ℚ)
  | popleft

def TRSOp.run : List TRSOp → TimedRunningSum ℚ → Except String (TimedRunningSum ℚ)
  | [], s => .ok s
  | TRSOp.append t x :: ops, s =>
    match s.append t x with
    | .error e => .error e
    | .ok s' => TRSOp.run ops s'
  | TRSOp.popleft :: ops, s =>
    match s.popleft with
    | .error e => .error e
    | .ok s' => TRSOp.run ops s'

/-! ## Messages and the Monitor base class (monitor.py)

A `Message` models the Python event dictionary restricted to the fields the
monitors in this development consume; a `none` field models a missing key.
Receiver ids (strings in Python) are embedded as naturals; satellite channel
ids `"{gnssId}.{svId}"` are embedded as pairs (the formatting is injective
for the integer ids that occur). -/

structure SvData where
  svid : Option ℕ
  gnssId : Option ℕ
  cno : Option ℚ
  qualityInd : Option ℚ

abbrev Vec3 := ℚ × ℚ × ℚ

structure Message where
  rxTime : Option ℚ
  validity : Option Bool
  receiverId : Option ℕ
  clockRate : Option ℚ
  clockBias : Option ℚ
  ecefPosition : Option Vec3
  svs : Option (List SvData)

/-- The mutable state of a `Monitor`: `last_event_time`, the status record
(`alarm`, `metric`, `threshold`), and the subclass state `sub` (buffers,
channel maps, ...).  `μ` is the type of the metric value (a number for most
monitors, a position vector for the stub sub-monitors of the dual-antenna
monitor, a boolean for the C/N0 drop monitor). -/
structure MonitorState (σ μ : Type) where
  lastEventTime : Option ℚ
  alarm : Bool
  metric : Option μ
  threshold : μ
  sub : σ

/-- The per-subclass behaviour of a monitor: the `verify_message` predicate,
the configured `monitor_timeout`, the subclass part of `reset`, the
`_calculate_metric` hook (which may mutate the subclass state and may raise),
and the `_compare_metric` hook (metric, threshold). -/
structure MonitorCfg (σ μ : Type) where
  verify : MonitorState σ μ → Message → Bool
  monitorTimeout : Option ℚ
  resetSub : σ → σ
  calcMetric : σ → Message → Except String (Option μ × σ)
  compare : μ → μ → Bool

/-- `Monitor.verify_message` (monitor.py lines 110-140): requires the three
basic fields, a true validity flag, the configured receiver id, and a time not
strictly before the last accepted event time. -/
def Monitor.verifyMessage {σ μ : Type} (rid : ℕ) (m : MonitorState σ μ) (msg : Message) :
    Bool :=
  match msg.rxTime, msg.validity, msg.receiverId with
  | some t, some v, some r =>
    v && (r == rid) &&
      (match m.lastEventTime with
       | some lt => !(decide (t < lt))
       | none => true)
  | _, _, _ => false

/-- `Monitor.reset` (monitor.py lines 178-186) plus the subclass part. -/
def Monitor.reset {σ μ : Type} (cfg : MonitorCfg σ μ) (m : MonitorState σ μ) :
    MonitorState σ μ :=
  { m with lastEventTime := none, alarm := false, metric := none, sub := cfg.resetSub m.sub }

/-- `Monitor.update` (monitor.py lines 142-176): verify, timeout-driven reset,
record the event time, run the metric hook, compare and store. -/
def Monitor.update {σ μ : Type} (cfg : MonitorCfg σ μ) (m : MonitorState σ μ)
    (msg : Message) : Except String (Option Bool × MonitorState σ μ) :=
  if !(cfg.verify m msg) then .ok (none, m)
  else
    let t := (msg.rxTime).getD 0
    let m1 :=
      match cfg.monitorTimeout, m.lastEventTime with
      | some tmo, some lt => if tmo ≤ t - lt then Monitor.reset cfg m else m
      | _, _ => m
    let m2 := { m1 with lastEventTime := some t }
    match cfg.calcMetric m2.sub msg with
    | .error e => .error e
    | .ok (none, s') => .ok (none, { m2 with sub := s' })
    | .ok (some mv, s') =>
      let a := cfg.compare mv m2.threshold
      .ok (some a, { m2 with sub := s', alarm := a, metric := some mv })

/-! ## FilteredMonitor (filtered_monitor.py)

Wraps the base `update`; the raw per-sample boolean outcome is stored as
`spoofing_flag`, pushed as `int(flag)` into the `detections` running sum, and
the filtered alarm is `detections.sum >= min_detections` (stored into the
status `alarm` slot, overwriting what the base update stored there). -/

structure FilteredState (σ μ : Type) where
  base : MonitorState σ μ
  spoofingFlag : Bool
  detections : FIFORunningSum
  minDetections : ℕ

def FilteredMonitor.update {σ μ : Type} (cfg : MonitorCfg σ μ) (f : FilteredState σ μ)
    (msg : Message) : Except String (Option Bool × FilteredState σ μ) :=
  match Monitor.update cfg f.base msg with
  | .error e => .error e
  | .ok (none, b') => .ok (none, { f with base := b' })
  | .ok (some flag, b') =>
    let det := f.detections.append (if flag then 1 else 0)
    let a : Bool := decide ((f.minDetections : ℚ) ≤ det.sum)
    let b'' : MonitorState σ μ := { b' with alarm := a }
    .ok (some a, { f with base := b'', spoofingFlag := flag, detections := det })

/-! ## CCD monitor (ccd_monitor.py)

State: two `TimedRunningSum ℚ` windows over `min_delta_t` (the buffers'
`target_elapsed_time`), the previous rate/time, and `max_delta_t`.  The
`while elapsed_time > max_delta_t` loop pops from both buffers in lock-step;
it is embedded with fuel equal to the buffer length, which bounds the number
of possible pops. -/

structure CCDState where
  biasSamples : TimedRunningSum ℚ
  rateIntegral : TimedRunningSum ℚ
  lastRate : Option ℚ
  lastTime : Option ℚ
  maxDeltaT : ℚ

def CCDState.init (minDeltaT maxDeltaT : ℚ) : CCDState :=
  ⟨TimedRunningSum.empty ℚ minDeltaT, TimedRunningSum.empty ℚ minDeltaT, none, none, maxDeltaT⟩

def CCDMonitor.trim : ℕ → ℚ → TimedRunningSum ℚ × TimedRunningSum ℚ →
    TimedRunningSum ℚ × TimedRunningSum ℚ
  | 0, _, p => p
  | n + 1, maxDt, (b, r) =>
    if maxDt < b.buf.elapsedTime then CCDMonitor.trim n maxDt (b.popleftT, r.popleftT)
    else (b, r)

/-- `CCDMonitor._calculate_metric` (ccd_monitor.py lines 150-209). -/
def CCDMonitor.calcMetric (s : CCDState) (msg : Message) :
    Except String (Option ℚ × CCDState) :=
  match msg.clockRate, msg.clockBias with
  | some rate, some bias =>
    let t := (msg.rxTime).getD 0
    match s.lastRate with
    | none => .ok (none, { s with lastTime := some t, lastRate := some rate })
    | some lr =>
      let lt := (s.lastTime).getD 0
      match s.biasSamples.append t bias with
      | .error e => .error e
      | .ok b1 =>
        let term := (rate + lr) / 2 * (t - lt)
        match s.rateIntegral.append t term with
        | .error e => .error e
        | .ok r1 =>
          let p := CCDMonitor.trim b1.buf.times.length s.maxDeltaT (b1, r1)
          let s' := { s with biasSamples := p.1, rateIntegral := p.2
                             lastRate := some rate, lastTime := some t }
          if p.1.buf.elapsedTime < p.1.buf.target then .ok (none, s')
          else .ok (some |p.1.sum - p.2.sum|, s')
  | _, _ => .ok (none, s)

/-- Feed the CCD metric hook a stream of messages from a consistent clock with
constant rate `r`: each message at time `t` carries `clock_rate = r` and
`clock_bias = r * (t - previous time)` (the delta clock bias; for the very
first message there is no previous time and the value is unused by the hook). -/
def CCDMonitor.consistentRun (r : ℚ) :
    CCDState → List ℚ → Except String (List (Option ℚ) × CCDState)
  | s, [] => .ok ([], s)
  | s, t :: ts =>
    let bias := r * (t - ((s.lastTime).getD t))
    let msg : Message := ⟨some t, some true, some 0, some r, some bias, none, none⟩
    match CCDMonitor.calcMetric s msg with
    | .error e => .error e
    | .ok (o, s') =>
      match CCDMonitor.consistentRun r s' ts with
      | .error e => .error e
      | .ok (os, s'') => .ok (o :: os, s'')

/-! ## C/N0 monitors (cn0_threshold_monitor.py, cn0_drop_monitor.py)

Channel maps (`self._cnos`, `self._drops`) are embedded as insertion-ordered
association lists, matching Python dict semantics: updating an existing key
keeps its position, a new key is appended at the end. -/

abbrev ChannelId := ℕ × ℕ

def dictSet {β : Type} : List (ChannelId × β) → ChannelId → β → List (ChannelId × β)
  | [], k, v => [(k, v)]
  | (k', v') :: rest, k, v =>
    if k' = k then (k, v) :: rest else (k', v') :: dictSet rest k v

def dictGet {β : Type} : List (ChannelId × β) → ChannelId → Option β
  | [], _ => none
  | (k', v') :: rest, k => if k' = k then some v' else dictGet rest k

/-- One iteration of the sv loop in
`CnoThresholdJammingMonitor._calculate_metric` (lines 85-110).  The source's
missing-field check logs an error but has no `continue`, so the subsequent
subscripts raise `KeyError` for a missing field; the invalid-quality branch
calls `self.logger.deubg(...)` (a typo for `debug`), which raises
`AttributeError` since `Logger` has no such attribute. -/
def CnoThresholdJammingMonitor.processSv (t : ℚ)
    (cnos : List (ChannelId × Option (ℚ × ℚ))) (sv : SvData) :
    Except String (List (ChannelId × Option (ℚ × ℚ))) :=
  match sv.svid, sv.gnssId, sv.cno, sv.qualityInd with
  | some svId, some gnssId, some cno, some q =>
    if q < 4 ∨ cno ≤ 0 then .error "AttributeError"
    else
      let cid : ChannelId := (gnssId, svId)
      match dictGet cnos cid with
      | some (some (lastT, _)) =>
        if t < lastT then .ok cnos else .ok (dictSet cnos cid (some (t, cno)))
      | _ => .ok (dictSet cnos cid (some (t, cno)))
  | _, _, _, _ => .error "KeyError"

def CnoThresholdJammingMonitor.processAll (t : ℚ) :
    List (ChannelId × Option (ℚ × ℚ)) → List SvData →
      Except String (List (ChannelId × Option (ℚ × ℚ)))
  | cnos, [] => .ok cnos
  | cnos, sv :: rest =>
    match CnoThresholdJammingMonitor.processSv t cnos sv with
    | .error e => .error e
    | .ok c' => CnoThresholdJammingMonitor.processAll t c' rest

/-- The final loop of `CnoThresholdJammingMonitor._calculate_metric` (lines
112-121): iterate over the channel map, invalidate stale channels, and take
the maximum cno of the rest.  The loop header unpacks each stored value as
`(last_time, cno)`, so a value already invalidated to `None` by a previous
update raises `TypeError`. -/
def CnoThresholdJammingMonitor.scanCnos (t window : ℚ) :
    List (ChannelId × Option (ℚ × ℚ)) → Option ℚ →
      Except String (List (ChannelId × Option (ℚ × ℚ)) × Option ℚ)
  | [], maxCno => .ok ([], maxCno)
  | (_, none) :: _, _ => .error "TypeError"
  | (k, some (lastT, cno)) :: rest, maxCno =>
    if window < t - lastT then
      match CnoThresholdJammingMonitor.scanCnos t window rest maxCno with
      | .error e => .error e
      | .ok (rest', m) => .ok ((k, none) :: rest', m)
    else
      let maxCno' :=
        match maxCno with
        | none => some cno
        | some m => if m < cno then some cno else some m
      match CnoThresholdJammingMonitor.scanCnos t window rest maxCno' with
      | .error e => .error e
      | .ok (rest', m) => .ok ((k, some (lastT, cno)) :: rest', m)

/-- `CnoThresholdJammingMonitor._calculate_metric` (lines 74-121). -/
def CnoThresholdJammingMonitor.calcMetric (window : ℚ)
    (cnos : List (ChannelId × Option (ℚ × ℚ))) (msg : Message) :
    Except String (Option ℚ × List (ChannelId × Option (ℚ × ℚ))) :=
  match msg.svs with
  | none => .ok (none, cnos)
  | some svs =>
    let t := (msg.rxTime).getD 0
    match CnoThresholdJammingMonitor.processAll t cnos svs with
    | .error e => .error e
    | .ok c1 =>
      match CnoThresholdJammingMonitor.scanCnos t window c1 none with
      | .error e => .error e
      | .ok (c2, maxCno) => .ok (maxCno, c2)

/-- `CnoThresholdJammingMonitor._compare_metric` (lines 123-124):
`metric < threshold`. -/
def CnoThresholdJammingMonitor.compareMetric (metric threshold : ℚ) : Bool :=
  decide (metric < threshold)

/-- One iteration of the sv loop in `CnoDropJammingMonitor._calculate_metric`
(lines 89-111).  Unlike the threshold monitor, the missing-field branch has a
`continue` and the invalid-quality branch calls the correctly spelled
`self.logger.debug`, so both kinds of entry are skipped without exception. -/
def CnoDropJammingMonitor.processSv (window t : ℚ)
    (cnos : List (ChannelId × TimedBuffer ℚ)) (sv : SvData) :
    Except String (List (ChannelId × TimedBuffer ℚ)) :=
  match sv.svid, sv.gnssId, sv.cno, sv.qualityInd with
  | some svId, some gnssId, some cno, some q =>
    if q < 4 ∨ cno ≤ 0 then .ok cnos
    else
      let cid : ChannelId := (gnssId, svId)
      let buf :=
        match dictGet cnos cid with
        | some b => b
        | none => TimedBuffer.empty ℚ window false
      match buf.append t cno with
      | .error e => .error e
      | .ok b' => .ok (dictSet cnos cid b')
  | _, _, _, _ => .ok cnos

def CnoDropJammingMonitor.processAll (window t : ℚ) :
    List (ChannelId × TimedBuffer ℚ) → List SvData →
      Except String (List (ChannelId × TimedBuffer ℚ))
  | cnos, [] => .ok cnos
  | cnos, sv :: rest =>
    match CnoDropJammingMonitor.processSv window t cnos sv with
    | .error e => .error e
    | .ok c' => CnoDropJammingMonitor.processAll window t c' rest

/-- The channel loop of `CnoDropJammingMonitor._calculate_metric` (lines
113-128): age each channel's buffer (the source calls `remove_old_samples()`
with its default `keep_one_before=True` — the comment there claims the
constructor-time `False` is in effect, but that flag is never read), record
the drop, and conjoin the alarm.  Returns the updated channel map, the updated
drops map, whether any channel was examined, and the alarm flag. -/
def CnoDropJammingMonitor.scanChannels (threshold : ℚ) :
    List (ChannelId × TimedBuffer ℚ) → List (ChannelId × Option ℚ) → Bool → Bool →
      List (ChannelId × TimedBuffer ℚ) × List (ChannelId × Option ℚ) × Bool × Bool
  | [], drops, anyEx, alarm => ([], drops, anyEx, alarm)
  | (k, data) :: rest, drops, anyEx, alarm =>
    let d := data.removeOldSamples true
    if d.times.length < 2 then
      let out := CnoDropJammingMonitor.scanChannels threshold rest (dictSet drops k none) anyEx alarm
      ((k, d) :: out.1, out.2)
    else
      let drop := -(((d.samples.getLast?).getD 0) - ((d.samples.head?).getD 0))
      let alarm' := if drop ≤ threshold then false else alarm
      let out := CnoDropJammingMonitor.scanChannels threshold rest (dictSet drops k (some drop)) true alarm'
      ((k, d) :: out.1, out.2)

structure CnoDropState where
  cnos : List (ChannelId × TimedBuffer ℚ)
  drops : List (ChannelId × Option ℚ)

/-- `CnoDropJammingMonitor._calculate_metric` (lines 79-134); the returned
metric is the boolean alarm itself (`_compare_metric` is the identity). -/
def CnoDropJammingMonitor.calcMetric (window threshold : ℚ) (st : CnoDropState)
    (msg : Message) : Except String (Option Bool × CnoDropState) :=
  match msg.svs with
  | none => .ok (none, st)
  | some svs =>
    let t := (msg.rxTime).getD 0
    match CnoDropJammingMonitor.processAll window t st.cnos svs with
    | .error e => .error e
    | .ok c1 =>
      let out := CnoDropJammingMonitor.scanChannels threshold c1 st.drops false true
      if out.2.2.1 then .ok (some out.2.2.2, ⟨out.1, out.2.1⟩)
      else .ok (none, ⟨out.1, out.2.1⟩)

/-! ## Dual-antenna distance monitor (dual_antenna_distance_monitor.py)

`StubPosMonitor` is a full `Monitor` whose metric hook stores `ecef_position`
samples in a `TimedRunningSum` of `Vec3` over `time_range` and returns the
position (its threshold is `inf` and its `_compare_metric` result is
meaningless and discarded; it is kept as an arbitrary function parameter).

`_last_update` is `-inf` at construction but `None` after `reset()`; the
Python comparison `newest_time > self._last_update` raises `TypeError` when it
is `None`, which `PyLastUpdate.ltTest` mirrors. -/

structure StubSub where
  samples : TimedRunningSum Vec3

/-- `StubPosMonitor._calculate_metric` (dual_antenna_distance_monitor.py lines
39-51): append the position, then pop a single oldest sample if the window is
exceeded (this monitor does not want one sample before the window). -/
def StubPosMonitor.calcMetric (sub : StubSub) (msg : Message) :
    Except String (Option Vec3 × StubSub) :=
  match msg.ecefPosition with
  | none => .ok (none, sub)
  | some p =>
    let t := (msg.rxTime).getD 0
    match sub.samples.append t p with
    | .error e => .error e
    | .ok s1 =>
      let s2 := if s1.buf.target < s1.buf.elapsedTime then s1.popleftT else s1
      .ok (some p, ⟨s2⟩)

def StubPosMonitor.cfg (rid : ℕ) (tmo : Option ℚ) (timeRange : ℚ)
    (cmp : Vec3 → Vec3 → Bool) : MonitorCfg StubSub Vec3 :=
  { verify := Monitor.verifyMessage rid
    monitorTimeout := tmo
    resetSub := fun _ => ⟨TimedRunningSum.empty Vec3 timeRange⟩
    calcMetric := StubPosMonitor.calcMetric
    compare := cmp }

inductive PyLastUpdate where
  | ninf
  | pynone
  | val (q : ℚ)

/-- The Python comparison `x > self._last_update`: always true against `-inf`,
a `TypeError` against `None`. -/
def PyLastUpdate.ltTest (lu : PyLastUpdate) (x : ℚ) : Except String Bool :=
  match lu with
  | .ninf => .ok true
  | .pynone => .error "TypeError"
  | .val q => .ok (decide (q < x))

structure DualSub where
  rx1 : MonitorState StubSub Vec3
  rx2 : MonitorState StubSub Vec3
  lastUpdate : PyLastUpdate

structure DualCfgData where
  rid1 : ℕ
  rid2 : ℕ
  monitorTimeout : Option ℚ
  minSamples : ℕ
  timeRange : ℚ
  stubCompare : Vec3 → Vec3 → Bool

/-- `DualAntennaDistanceMonitor.verify_message` (lines 192-222): like the base
check but accepting either configured receiver id. -/
def DualAntennaDistanceMonitor.verifyMessage {σ μ : Type} (rid1 rid2 : ℕ)
    (m : MonitorState σ μ) (msg : Message) : Bool :=
  match msg.rxTime, msg.validity, msg.receiverId with
  | some t, some v, some r =>
    v && (r == rid1 || r == rid2) &&
      (match m.lastEventTime with
       | some lt => !(decide (t < lt))
       | none => true)
  | _, _, _ => false

def vecScale (n : ℚ) (v : Vec3) : Vec3 :=
  (v.1 / n, v.2.1 / n, v.2.2 / n)

/-- The squared Euclidean norm `sum(w ** 2)` of a difference vector; the code
returns `math.sqrt` of this.  Since `ℚ` has no square root, the embedded
metric value is this square, and the threshold comparison is carried out on
squares (see `DualAntennaDistanceMonitor.compareMetric`). -/
def sqNorm (v : Vec3) : ℚ :=
  v.1 ^ 2 + v.2.1 ^ 2 + v.2.2 ^ 2

/-- `DualAntennaDistanceMonitor._compare_metric` (lines 189-190) is
`metric <= threshold` on the square-root scale; on the squared scale embedded
here this is `metricSq <= threshold ^ 2`, equivalent for the positive
thresholds enforced by the threshold setter (lines 139-145). -/
def DualAntennaDistanceMonitor.compareMetric (metricSq threshold : ℚ) : Bool :=
  decide (metricSq ≤ threshold ^ 2)

/-- `DualAntennaDistanceMonitor._calculate_metric` (lines 155-187): route the
message into the matching sub-monitor's full `update`, require both
sub-monitors to have advanced past `_last_update` and to hold at least
`minimum_samples` entries, then record the update time and return the
(squared) distance between the two window-average positions. -/
def DualAntennaDistanceMonitor.calcMetric (cfg : DualCfgData) (sub : DualSub)
    (msg : Message) : Except String (Option ℚ × DualSub) :=
  let t := (msg.rxTime).getD 0
  let rcv := (msg.receiverId).getD 0
  if rcv ≠ cfg.rid1 ∧ rcv ≠ cfg.rid2 then .error "KeyError"
  else
    let routed : Except String (MonitorState StubSub Vec3 × MonitorState StubSub Vec3) :=
      if rcv = cfg.rid1 then
        (Monitor.update (StubPosMonitor.cfg cfg.rid1 cfg.monitorTimeout cfg.timeRange
            cfg.stubCompare) sub.rx1 msg).map (fun pr => (pr.2, sub.rx2))
      else
        (Monitor.update (StubPosMonitor.cfg cfg.rid2 cfg.monitorTimeout cfg.timeRange
            cfg.stubCompare) sub.rx2 msg).map (fun pr => (sub.rx1, pr.2))
    match routed with
    | .error e => .error e
    | .ok (r1, r2) =>
      match sub.lastUpdate.ltTest r1.sub.samples.buf.newestTime with
      | .error e => .error e
      | .ok c1 =>
        match (if c1 then sub.lastUpdate.ltTest r2.sub.samples.buf.newestTime
               else .ok false) with
        | .error e => .error e
        | .ok c2 =>
          if !(c1 && c2) then .ok (none, ⟨r1, r2, sub.lastUpdate⟩)
          else if r1.sub.samples.buf.times.length < cfg.minSamples ∨
                  r2.sub.samples.buf.times.length < cfg.minSamples then
            .ok (none, ⟨r1, r2, sub.lastUpdate⟩)
          else
            let avg1 := vecScale (r1.sub.samples.buf.times.length : ℚ) r1.sub.samples.sum
            let avg2 := vecScale (r2.sub.samples.buf.times.length : ℚ) r2.sub.samples.sum
            .ok (some (sqNorm (avg1 - avg2)), ⟨r1, r2, .val t⟩)

/-- The full dual-antenna monitor configuration over the generic `Monitor`
machinery.  `reset()` (lines 147-153) resets both sub-monitors and sets
`_last_update` to `None` (not `-inf` as in `__init__`). -/
def DualAntennaDistanceMonitor.cfg (c : DualCfgData) : MonitorCfg DualSub ℚ :=
  { verify := DualAntennaDistanceMonitor.verifyMessage c.rid1 c.rid2
    monitorTimeout := c.monitorTimeout
    resetSub := fun sub =>
      ⟨Monitor.reset (StubPosMonitor.cfg c.rid1 c.monitorTimeout c.timeRange c.stubCompare) sub.rx1
       , Monitor.reset (StubPosMonitor.cfg c.rid2 c.monitorTimeout c.timeRange c.stubCompare) sub.rx2
       , .pynone⟩
    calcMetric := DualAntennaDistanceMonitor.calcMetric c
    compare := DualAntennaDistanceMonitor.compareMetric }

/-- A freshly constructed dual-antenna monitor (lines 81-110):
`_last_update = -inf`, empty sub-monitors. -/
def DualAntennaDistanceMonitor.init (c : DualCfgData) (threshold : ℚ) :
    MonitorState DualSub ℚ :=
  { lastEventTime := none
    alarm := false
    metric := none
    threshold := threshold
    sub := ⟨⟨none, false, none, (0, 0, 0), ⟨TimedRunningSum.empty Vec3 c.timeRange⟩⟩
            , ⟨none, false, none, (0, 0, 0), ⟨TimedRunningSum.empty Vec3 c.timeRange⟩⟩
            , .ninf⟩ }

/-! ## Concrete fixtures used by witness theorems -/

def unitCfg : MonitorCfg Unit ℚ :=
  ⟨Monitor.verifyMessage 5, none, id, fun s _ => .ok (none, s), fun a b => decide (b < a)⟩

def unitState : MonitorState Unit ℚ :=
  ⟨none, false, none, 0, ()⟩

def invalidMsg : Message :=
  ⟨some 1, some false, some 5, none, none, none, none⟩

def validMsgC4 : Message :=
  ⟨some 1, some true, some 5, none, none, none, none⟩

def filteredCfgC4 : MonitorCfg Unit ℚ :=
  ⟨Monitor.verifyMessage 5, none, id, fun s _ => .ok (some 10, s), fun a b => decide (b < a)⟩

def filteredStateC4 : FilteredState Unit ℚ :=
  ⟨⟨none, false, none, 0, ()⟩, false, ⟨[1, 0], 9, 1⟩, 3⟩

def baseStateC4 : MonitorState Unit ℚ :=
  ⟨some 1, true, some 10, 0, ()⟩

def dualCfgC10 : DualCfgData :=
  ⟨1, 2, none, 10, 15, fun _ _ => false⟩

def dualMsgC10 : Message :=
  ⟨some 1, some true, some 1, none, none, some (0, 0, 0), none⟩

def dualCfgC8 : DualCfgData :=
  ⟨1, 2, none, 1, 15, fun _ _ => false⟩

def dualSubC8 : DualSub :=
  ⟨⟨some 0, false, none, (0, 0, 0), ⟨⟨⟨[0], [(0, 0, 0)], 15, true⟩, (0, 0, 0)⟩⟩⟩
   , ⟨some 0, false, none, (0, 0, 0), ⟨⟨⟨[0], [(6, 0, 0)], 15, true⟩, (6, 0, 0)⟩⟩⟩
   , .ninf⟩

def rx1AfterC8 : MonitorState StubSub Vec3 :=
  ⟨some 1, false, some (0, 0, 0), (0, 0, 0)
   , ⟨⟨⟨[0, 1], [(0, 0, 0), (0, 0, 0)], 15, true⟩, (0, 0, 0)⟩⟩⟩

/-! ## Helper lemmas -/

theorem TimedBuffer.popleftT_iter_drop {α : Type} (n : ℕ) (b : TimedBuffer α) :
    TimedBuffer.popleftT^[n] b =
      ⟨b.times.drop n, b.samples.drop n, b.target, b.keepOne⟩ := by
  induction n generalizing b with
  | zero => simp
  | succ n ih =>
    rw [Function.iterate_succ_apply, ih]
    simp [TimedBuffer.popleftT, List.drop_drop, ← List.drop_one]
    constructor
    · rw [Nat.add_comm]
    · rw [Nat.add_comm]

theorem TimedRunningSum.popleftT_iter_sum {α : Type} [AddCommGroup α] (n : ℕ)
    (s : TimedRunningSum α) :
    (TimedRunningSum.popleftT^[n] s).buf = TimedBuffer.popleftT^[n] s.buf ∧
    (TimedRunningSum.popleftT^[n] s).sum = s.sum - (s.buf.samples.take n).sum := by
  induction n generalizing s with
  | zero => simp
  | succ n ih =>
    rw [Function.iterate_succ_apply, Function.iterate_succ_apply]
    obtain ⟨ihb, ihs⟩ := ih (s.popleftT)
    refine ⟨ihb.trans (by rfl), ihs.trans ?_⟩
    show s.sum - (s.buf.samples.head?).getD 0 - ((s.buf.popleftT).samples.take n).sum =
      s.sum - (s.buf.samples.take (n + 1)).sum
    cases h : s.buf.samples with
    | nil => simp [TimedBuffer.popleftT, h]
    | cons hd tl =>
      simp [TimedBuffer.popleftT, h, sub_sub]

theorem FIFORunningSum.append_inv (N : ℕ) (hN : 0 < N) (raw : List ℚ)
    (f : FIFORunningSum) (hb : f.buffer = raw.drop (raw.length - N))
    (hs : f.sum = f.buffer.sum) (hm : f.maxSize = N) (v : ℚ) :
    (f.append v).buffer = (raw ++ [v]).drop ((raw ++ [v]).length - N) ∧
    (f.append v).sum = (f.append v).buffer.sum ∧
    (f.append v).maxSize = N := by
  have hlen : f.buffer.length = raw.length - (raw.length - N) := by
    rw [hb, List.length_drop]
  by_cases hc : N ≤ raw.length
  · have hfl : f.buffer.length = N := by omega
    obtain ⟨hd, tl, hcons⟩ : ∃ hd tl, f.buffer = hd :: tl := by
      cases hbuf : f.buffer with
      | nil => rw [hbuf] at hfl; simp at hfl; omega
      | cons a l => exact ⟨a, l, rfl⟩
    have htl : tl = raw.drop (raw.length + 1 - N) := by
      have h1 : tl = (raw.drop (raw.length - N)).tail := by
        rw [← hb, hcons]
        rfl
      rw [h1, List.tail_drop]
      congr 1
      omega
    have hdrop : (raw ++ [v]).drop ((raw ++ [v]).length - N) = tl ++ [v] := by
      rw [List.drop_append_eq_append_drop]
      have h2 : (raw ++ [v]).length - N = raw.length + 1 - N := by simp
      rw [h2, htl]
      have h3 : raw.length + 1 - N - raw.length = 0 := by omega
      rw [h3, List.drop_zero]
    refine ⟨?_, ?_, ?_⟩
    · show (f.buffer ++ [v]).drop (f.buffer.length + 1 - f.maxSize) = _
      rw [hdrop, hm, hfl, hcons]
      have h4 : N + 1 - N = 1 := by omega
      rw [h4]
      simp
    · show (if f.buffer.length = f.maxSize then f.sum - (f.buffer.head?).getD 0 else f.sum)
          + v = ((f.buffer ++ [v]).drop (f.buffer.length + 1 - f.maxSize)).sum
      rw [hm, hfl, if_pos rfl, hcons]
      have h4 : N + 1 - N = 1 := by omega
      rw [h4]
      have h5 : f.sum = hd + tl.sum := by rw [hs, hcons]; simp
      simp [h5]
    · exact hm
  · have h0 : raw.length - N = 0 := by omega
    rw [h0, List.drop_zero] at hb
    have hfl : f.buffer.length = raw.length := by rw [hb]
    have hne : ¬ (f.buffer.length = f.maxSize) := by omega
    have hdz : f.buffer.length + 1 - f.maxSize = 0 := by omega
    have hdz2 : (raw ++ [v]).length - N = 0 := by simp; omega
    refine ⟨?_, ?_, ?_⟩
    · show (f.buffer ++ [v]).drop (f.buffer.length + 1 - f.maxSize) = _
      rw [hdz, hdz2, List.drop_zero, List.drop_zero, hb]
    · show (if f.buffer.length = f.maxSize then f.sum - (f.buffer.head?).getD 0 else f.sum)
          + v = ((f.buffer ++ [v]).drop (f.buffer.length + 1 - f.maxSize)).sum
      rw [if_neg hne, hdz, List.drop_zero, hs]
      simp
    · exact hm

theorem FIFORunningSum.appendAll_inv (N : ℕ) (hN : 0 < N) (vals : List ℚ) :
    ∀ (raw : List ℚ) (f : FIFORunningSum),
      f.buffer = raw.drop (raw.length - N) → f.sum = f.buffer.sum → f.maxSize = N →
      (f.appendAll vals).buffer = (raw ++ vals).drop ((raw ++ vals).length - N) ∧
      (f.appendAll vals).sum = (f.appendAll vals).buffer.sum ∧
      (f.appendAll vals).maxSize = N := by
  induction vals with
  | nil =>
    intro raw f hb hs hm
    simpa [FIFORunningSum.appendAll] using ⟨hb, hs, hm⟩
  | cons v vs ih =>
    intro raw f hb hs hm
    have step := FIFORunningSum.append_inv N hN raw f hb hs hm v
    have h2 := ih (raw ++ [v]) (f.append v) step.1 step.2.1 step.2.2
    simpa [FIFORunningSum.appendAll, List.append_assoc] using h2

theorem FIFORunningSum.appendAll_spec (N : ℕ) (hN : 0 < N) (vals : List ℚ) :
    ((FIFORunningSum.empty N).appendAll vals).buffer = vals.drop (vals.length - N) ∧
    ((FIFORunningSum.empty N).appendAll vals).sum = (vals.drop (vals.length - N)).sum := by
  have h := FIFORunningSum.appendAll_inv N hN vals [] (FIFORunningSum.empty N)
    (by simp [FIFORunningSum.empty]) (by simp [FIFORunningSum.empty]) rfl
  simp only [List.nil_append] at h
  exact ⟨h.1, h.2.1.trans (by rw [h.1])⟩

theorem TimedRunningSum.append_sum {α : Type} [AddCommGroup α] (s : TimedRunningSum α)
    (t : ℚ) (x : α) (hs : s.sum = s.buf.samples.sum) (s' : TimedRunningSum α)
    (h : s.append t x = .ok s') : s'.sum = s'.buf.samples.sum := by
  unfold TimedRunningSum.append at h
  by_cases hlt : t < s.buf.newestTime
  · simp [hlt] at h
  · rw [if_neg hlt] at h
    simp only [Except.ok.injEq] at h
    subst h
    set pushed : TimedBuffer α :=
      { s.buf with times := s.buf.times ++ [t], samples := s.buf.samples ++ [x] } with hp
    set n := pushed.numStale true with hn
    obtain ⟨hb, hsum⟩ := TimedRunningSum.popleftT_iter_sum n ⟨pushed, s.sum⟩
    show (TimedRunningSum.popleftT^[n] ⟨pushed, s.sum⟩).sum + x =
      (TimedRunningSum.popleftT^[n] ⟨pushed, s.sum⟩).buf.samples.sum
    rw [hsum, hb, TimedBuffer.popleftT_iter_drop]
    show s.sum - (pushed.samples.take n).sum + x = (pushed.samples.drop n).sum
    have hsplit := List.sum_take_add_sum_drop pushed.samples n
    have hpsum : pushed.samples.sum = s.buf.samples.sum + x := by
      rw [hp]; simp
    rw [hpsum] at hsplit
    rw [hs]
    have : (pushed.samples.drop n).sum
        = s.buf.samples.sum + x - (pushed.samples.take n).sum := by
      rw [← hsplit]; abel
    rw [this]
    abel

theorem TimedRunningSum.popleft_sum {α : Type} [AddCommGroup α] (s s' : TimedRunningSum α)
    (hs : s.sum = s.buf.samples.sum) (h : s.popleft = .ok s') :
    s'.sum = s'.buf.samples.sum := by
  unfold TimedRunningSum.popleft at h
  cases hsam : s.buf.samples with
  | nil => rw [hsam] at h; simp at h
  | cons hd tl =>
    rw [hsam] at h
    simp [TimedRunningSum.popleftT] at h
    subst h
    show s.sum - ((s.buf.samples.head?).getD 0) = s.buf.samples.tail.sum
    rw [hsam, hs, hsam]
    simp

theorem TRSOp.run_sum : ∀ (ops : List TRSOp) (s s' : TimedRunningSum ℚ),
    s.sum = s.buf.samples.sum → TRSOp.run ops s = .ok s' →
    s'.sum = s'.buf.samples.sum := by
  intro ops
  induction ops with
  | nil =>
    intro s s' hs h
    simp only [TRSOp.run, Except.ok.injEq] at h
    subst h; exact hs
  | cons op rest ih =>
    intro s s' hs h
    cases op with
    | append t x =>
      simp only [TRSOp.run] at h
      cases hstep : s.append t x with
      | error e => rw [hstep] at h; simp at h
      | ok s1 =>
        rw [hstep] at h
        exact ih s1 s' (TimedRunningSum.append_sum s t x hs s1 hstep) h
    | popleft =>
      simp only [TRSOp.run] at h
      cases hstep : s.popleft with
      | error e => rw [hstep] at h; simp at h
      | ok s1 =>
        rw [hstep] at h
        exact ih s1 s' (TimedRunningSum.popleft_sum s s1 hs hstep) h

/-- C9: for every `TimedBuffer` and every `append(time, sample)`, the call
fails with an ordering error exactly when `time` is strictly less than the
buffer's current `newest_time`; appending a time equal to `newest_time`
always succeeds. -/
theorem claim_C9_append_ordering {α : Type} (b : TimedBuffer α) (t : ℚ) (s : α) :
    ((∃ e, b.append t s = Except.error e) ↔ t < b.newestTime) ∧
    (∃ b', b.append b.newestTime s = Except.ok b') := by
  refine ⟨?_, ?_⟩
  · unfold TimedBuffer.append
    by_cases hlt : t < b.newestTime
    · simp [hlt]
    · simp [hlt]
  · unfold TimedBuffer.append
    simp

/-- C1 (the code contradicts it): a `TimedBuffer` constructed with
`keep_one_sample_before = False` and `target_elapsed_time = 10`, after
`append(0, 1)` and `append(20, 2)`, still retains the entry at time 0 even
though `0 < 20 - 10`, because `append` calls `remove_old_samples()` with the
parameter default `keep_one_before=True` and never consults the stored flag.
An explicit `remove_old_samples(keep_one_before=False)` on the same buffer
does evict it, confirming the flag plumbing (not the eviction logic) is at
fault. -/
theorem claim_C1_keep_one_flag_dead :
    ∃ b1 b2 : TimedBuffer ℚ,
      (TimedBuffer.empty ℚ 10 false).append 0 1 = Except.ok b1 ∧
      b1.append 20 2 = Except.ok b2 ∧
      b2.times = [0, 20] ∧
      (b2.removeOldSamples false).times = [20] := by
  refine ⟨⟨[0], [1], 10, false⟩, ⟨[0, 20], [1, 2], 10, false⟩, ?_, ?_, rfl, ?_⟩
  · norm_num [TimedBuffer.append, TimedBuffer.empty, TimedBuffer.newestTime,
      TimedBuffer.removeOldSamples, TimedBuffer.numStale, TimedBuffer.popleftT,
      List.takeWhile]
  · norm_num [TimedBuffer.append, TimedBuffer.empty, TimedBuffer.newestTime,
      TimedBuffer.removeOldSamples, TimedBuffer.numStale, TimedBuffer.popleftT,
      List.takeWhile]
  · norm_num [TimedBuffer.removeOldSamples, TimedBuffer.numStale, TimedBuffer.newestTime,
      TimedBuffer.popleftT, List.takeWhile]

/-- C3: a `FifoRunningSum` of positive capacity `N` has, after appending any
sequence of values, `sum` equal to the exact sum of the last `min(N, count)`
appended values (expressed as the suffix `vals.drop (vals.length - N)`); and
a `TimedRunningSum`, after any successful sequence of `append`/`popleft`
operations from empty, has `sum` equal to the exact sum of the currently
retained samples. -/
theorem claim_C3_running_sum_exact :
    (∀ (N : ℕ) (vals : List ℚ), 0 < N →
      ((FIFORunningSum.empty N).appendAll vals).sum
        = (vals.drop (vals.length - N)).sum) ∧
    (∀ (target : ℚ) (ops : List TRSOp) (s' : TimedRunningSum ℚ),
      TRSOp.run ops (TimedRunningSum.empty ℚ target) = .ok s' →
      s'.sum = s'.buf.samples.sum) := by
  constructor
  · intro N vals hN
    exact (FIFORunningSum.appendAll_spec N hN vals).2
  · intro target ops s' h
    exact TRSOp.run_sum ops (TimedRunningSum.empty ℚ target) s' (by simp [TimedRunningSum.empty, TimedBuffer.empty]) h

/-- Witness for C3 at concrete inputs: capacity 3 with appends 1..6 gives a
final running sum of 4+5+6 = 15, and a three-operation `TimedRunningSum`
trace ends with `sum = 7` matching its single retained sample. -/
theorem claim_C3_witness :
    (0 < 3 ∧ ((FIFORunningSum.empty 3).appendAll [1, 2, 3, 4, 5, 6]).sum
      = (([1, 2, 3, 4, 5, 6] : List ℚ).drop (([1, 2, 3, 4, 5, 6] : List ℚ).length - 3)).sum) ∧
    (TRSOp.run [TRSOp.append 1 5, TRSOp.append 2 7, TRSOp.popleft]
        (TimedRunningSum.empty ℚ 10)
      = .ok ⟨⟨[2], [7], 10, true⟩, 7⟩ ∧
      (⟨⟨[2], [7], 10, true⟩, 7⟩ : TimedRunningSum ℚ).sum
        = (⟨⟨[2], [7], 10, true⟩, 7⟩ : TimedRunningSum ℚ).buf.samples.sum) :=
  ⟨⟨by norm_num, claim_C3_running_sum_exact.1 3 [1, 2, 3, 4, 5, 6] (by norm_num)⟩,
   by
    have hrun : TRSOp.run [TRSOp.append 1 5, TRSOp.append 2 7, TRSOp.popleft]
        (TimedRunningSum.empty ℚ 10) = .ok ⟨⟨[2], [7], 10, true⟩, 7⟩ := by
      norm_num [TRSOp.run, TimedRunningSum.append, TimedRunningSum.empty,
        TimedRunningSum.popleft, TimedRunningSum.popleftT, TimedBuffer.empty,
        TimedBuffer.newestTime, TimedBuffer.numStale, TimedBuffer.popleftT,
        List.takeWhile]
    exact ⟨hrun, claim_C3_running_sum_exact.2 10
      [TRSOp.append 1 5, TRSOp.append 2 7, TRSOp.popleft] ⟨⟨[2], [7], 10, true⟩, 7⟩ hrun⟩⟩

theorem Monitor.update_not_verified {σ μ : Type} (cfg : MonitorCfg σ μ)
    (m : MonitorState σ μ) (msg : Message) (h : cfg.verify m msg = false) :
    Monitor.update cfg m msg = .ok (none, m) := by
  simp [Monitor.update, h]

theorem FilteredMonitor.update_not_verified_filtered {σ μ : Type} (cfg : MonitorCfg σ μ)
    (f : FilteredState σ μ) (msg : Message) (h : cfg.verify f.base msg = false) :
    FilteredMonitor.update cfg f msg = .ok (none, f) := by
  simp [FilteredMonitor.update, Monitor.update_not_verified cfg f.base msg h]

/-- C2: `verify_message` fails exactly when a basic field is missing, the
validity flag is false, the receiver id mismatches, or the time is strictly
before the last accepted event time; and an update with a message that fails
verification returns no result and leaves the entire monitor state — base
fields and subclass state alike — unchanged, for the base `Monitor.update`
and for `FilteredMonitor.update` (whose detection window is also untouched). -/
theorem claim_C2_unusable_message_no_state_change :
    (∀ (σ μ : Type) (rid : ℕ) (m : MonitorState σ μ) (msg : Message),
      Monitor.verifyMessage rid m msg = false ↔
        (msg.rxTime = none ∨ msg.validity = none ∨ msg.receiverId = none ∨
         msg.validity = some false ∨
         (∃ r, msg.receiverId = some r ∧ r ≠ rid) ∨
         (∃ t lt, msg.rxTime = some t ∧ m.lastEventTime = some lt ∧ t < lt))) ∧
    (∀ (σ μ : Type) (cfg : MonitorCfg σ μ) (m : MonitorState σ μ) (msg : Message),
      cfg.verify m msg = false → Monitor.update cfg m msg = .ok (none, m)) ∧
    (∀ (σ μ : Type) (cfg : MonitorCfg σ μ) (f : FilteredState σ μ) (msg : Message),
      cfg.verify f.base msg = false → FilteredMonitor.update cfg f msg = .ok (none, f)) := by
  refine ⟨?_, ?_, ?_⟩
  · intro σ μ rid m msg
    obtain ⟨rxTime, validity, receiverId, _, _, _, _⟩ := msg
    obtain ⟨lastEventTime, alarm, metric, threshold, sub⟩ := m
    unfold Monitor.verifyMessage
    rcases validity with _ | v
    · cases rxTime <;> cases receiverId <;> cases lastEventTime <;> simp
    · cases rxTime <;> cases receiverId <;> cases lastEventTime <;> cases v <;>
        simp <;> tauto
  · intro σ μ cfg m msg h
    exact Monitor.update_not_verified cfg m msg h
  · intro σ μ cfg f msg h
    exact FilteredMonitor.update_not_verified_filtered cfg f msg h

/-- Witness for C2: a message whose validity flag is false fails verification
and leaves a concrete monitor state untouched. -/
theorem claim_C2_witness :
    unitCfg.verify unitState invalidMsg = false ∧
    Monitor.update unitCfg unitState invalidMsg = .ok (none, unitState) :=
  ⟨by norm_num [unitCfg, unitState, invalidMsg, Monitor.verifyMessage],
   claim_C2_unusable_message_no_state_change.2.1 Unit ℚ unitCfg unitState invalidMsg
     (by norm_num [unitCfg, unitState, invalidMsg, Monitor.verifyMessage])⟩

theorem sum_map_bool_indicator (l : List Bool) :
    (l.map (fun b => if b then (1 : ℚ) else 0)).sum = l.count true := by
  induction l with
  | nil => simp
  | cons b t ih =>
    cases b <;> simp [ih, List.count_cons] <;> push_cast <;> ring

theorem FIFORunningSum.appendAll_snoc (f : FIFORunningSum) (l : List ℚ) (v : ℚ) :
    f.appendAll (l ++ [v]) = (f.appendAll l).append v := by
  simp [FIFORunningSum.appendAll, List.foldl_append]

/-- C4: for a `FilteredMonitor` whose detection window so far reflects the raw
flags `raw` (the reachable-state invariant), one more update behaves as the
M-of-N filter: if the base pipeline yields no metric, the update yields no
metric and the detection window is untouched; if the base pipeline yields the
raw flag `flag`, the update stores `flag` as `spoofing_flag`, pushes it into
the window, and returns (and stores as `alarm`) true exactly when at least
`min_detections` of the most recent `sample_window` raw flags are set. -/
theorem claim_C4_filtered_m_of_n :
    ∀ (σ μ : Type) (cfg : MonitorCfg σ μ) (f : FilteredState σ μ) (msg : Message)
      (raw : List Bool) (N : ℕ),
      N = f.detections.maxSize → 0 < N →
      f.detections = (FIFORunningSum.empty N).appendAll
          (raw.map (fun b => if b then (1 : ℚ) else 0)) →
      ((∀ b', Monitor.update cfg f.base msg = .ok (none, b') →
        FilteredMonitor.update cfg f msg = .ok (none, { f with base := b' })) ∧
      (∀ flag b', Monitor.update cfg f.base msg = .ok (some flag, b') →
        ∃ f' : FilteredState σ μ,
          FilteredMonitor.update cfg f msg =
            .ok (some (decide (f.minDetections ≤
              ((raw ++ [flag]).drop ((raw ++ [flag]).length - N)).count true)), f') ∧
          f'.spoofingFlag = flag ∧
          f'.detections = f.detections.append (if flag then 1 else 0) ∧
          f'.base.alarm = decide (f.minDetections ≤
              ((raw ++ [flag]).drop ((raw ++ [flag]).length - N)).count true) ∧
          f'.minDetections = f.minDetections)) := by
  intro σ μ cfg f msg raw N hN hNpos hdet
  constructor
  · intro b' hupd
    simp [FilteredMonitor.update, hupd]
  · intro flag b' hupd
    have hsum : (f.detections.append (if flag then (1 : ℚ) else 0)).sum
        = (((raw ++ [flag]).drop ((raw ++ [flag]).length - N)).count true : ℚ) := by
      rw [hdet, ← FIFORunningSum.appendAll_snoc]
      have hmap : (raw.map (fun b => if b then (1 : ℚ) else 0))
          ++ [if flag then (1 : ℚ) else 0]
          = (raw ++ [flag]).map (fun b => if b then (1 : ℚ) else 0) := by
        simp
      rw [hmap]
      have hspec := FIFORunningSum.appendAll_spec N hNpos
        ((raw ++ [flag]).map (fun b => if b then (1 : ℚ) else 0))
      rw [hspec.2]
      rw [List.length_map, ← List.map_drop, sum_map_bool_indicator]
    have hdec : decide ((f.minDetections : ℚ)
          ≤ (f.detections.append (if flag then (1 : ℚ) else 0)).sum)
        = decide (f.minDetections ≤
          ((raw ++ [flag]).drop ((raw ++ [flag]).length - N)).count true) := by
      rw [hsum]
      exact decide_eq_decide.mpr (by exact_mod_cast Iff.rfl)
    refine ⟨⟨{ b' with alarm := decide (f.minDetections ≤
        ((raw ++ [flag]).drop ((raw ++ [flag]).length - N)).count true) }, flag,
        f.detections.append (if flag then (1 : ℚ) else 0), f.minDetections⟩,
      ?_, rfl, rfl, rfl, rfl⟩
    simp only [FilteredMonitor.update, hupd]
    rw [← hdec]

/-- Witness for C4: a filtered monitor with `min_detections = 3`,
`sample_window = 9`, a detection window holding flags `[true, false]`, and a
base pipeline that flags the next message, pushes the new flag and reports no
alarm since only 2 of the last 9 raw flags are set. -/
theorem claim_C4_witness :
    ((9 = filteredStateC4.detections.maxSize ∧ 0 < 9) ∧
     filteredStateC4.detections = (FIFORunningSum.empty 9).appendAll
        ([true, false].map (fun b => if b then (1 : ℚ) else 0)) ∧
     Monitor.update filteredCfgC4 filteredStateC4.base validMsgC4
        = .ok (some true, baseStateC4)) ∧
    (∃ f' : FilteredState Unit ℚ,
      FilteredMonitor.update filteredCfgC4 filteredStateC4 validMsgC4 =
        .ok (some (decide (filteredStateC4.minDetections ≤
          (([true, false] ++ [true]).drop
            (([true, false] ++ [true]).length - 9)).count true)), f') ∧
      f'.spoofingFlag = true ∧
      f'.detections = filteredStateC4.detections.append (if true then (1 : ℚ) else 0) ∧
      f'.base.alarm = decide (filteredStateC4.minDetections ≤
          (([true, false] ++ [true]).drop
            (([true, false] ++ [true]).length - 9)).count true) ∧
      f'.minDetections = filteredStateC4.minDetections) := by
  have h3 : filteredStateC4.detections = (FIFORunningSum.empty 9).appendAll
      ([true, false].map (fun b => if b then (1 : ℚ) else 0)) := by
    norm_num [filteredStateC4, FIFORunningSum.empty, FIFORunningSum.appendAll,
      FIFORunningSum.append]
  have h4 : Monitor.update filteredCfgC4 filteredStateC4.base validMsgC4
      = .ok (some true, baseStateC4) := by
    norm_num [Monitor.update, filteredCfgC4, filteredStateC4, baseStateC4, validMsgC4,
      Monitor.verifyMessage]
  exact ⟨⟨⟨rfl, by norm_num⟩, h3, h4⟩,
    (claim_C4_filtered_m_of_n Unit ℚ filteredCfgC4 filteredStateC4 validMsgC4
      [true, false] 9 rfl (by norm_num) h3).2 true baseStateC4 h4⟩

theorem takeWhile_concat_length_le {α : Type} (p : α → Bool) (l : List α) (a : α)
    (h : p a = false) : (List.takeWhile p (l ++ [a])).length ≤ l.length := by
  induction l with
  | nil => simp [List.takeWhile, h]
  | cons x rest ih =>
    by_cases hx : p x
    · simpa [List.takeWhile, hx] using ih
    · simp [List.takeWhile, hx]

theorem TimedBuffer.numStale_concat_le {α : Type} (b : TimedBuffer α) (t : ℚ) (x : α)
    (htgt : 0 ≤ b.target) (k : Bool) :
    ({ b with times := b.times ++ [t], samples := b.samples ++ [x] } :
        TimedBuffer α).numStale k ≤ b.times.length := by
  unfold TimedBuffer.numStale
  simp only [TimedBuffer.newestTime]
  split
  · omega
  · have hlast : (((b.times ++ [t]).getLast?).getD 0) = t := by simp
    simp only [hlast]
    have hfalse : (fun tt => decide (tt < t - b.target)) t = false := by
      simp only [decide_eq_false_iff_not]
      intro hcon
      have : b.target < 0 := by linarith
      linarith
    have hlen := takeWhile_concat_length_le
      (fun tt => decide (tt < t - b.target)) b.times t hfalse
    cases k <;> simp <;> omega

/-- A successful `TimedRunningSum.append` into a buffer with a non-negative
window leaves the appended time as the newest time, and preserves the window
parameters. -/
theorem TimedRunningSum.append_ok_newest (s : TimedRunningSum ℚ) (t x : ℚ)
    (htgt : 0 ≤ s.buf.target) (hnew : ¬ t < s.buf.newestTime) :
    ∃ B, s.append t x = .ok B ∧ B.buf.newestTime = t ∧
      B.buf.target = s.buf.target ∧ B.buf.keepOne = s.buf.keepOne := by
  unfold TimedRunningSum.append
  rw [if_neg hnew]
  set pushed : TimedBuffer ℚ :=
    { s.buf with times := s.buf.times ++ [t], samples := s.buf.samples ++ [x] } with hp
  set n := pushed.numStale true with hn
  refine ⟨_, rfl, ?_, ?_, ?_⟩
  · obtain ⟨hbuf, -⟩ := TimedRunningSum.popleftT_iter_sum n ⟨pushed, s.sum⟩
    show (TimedRunningSum.popleftT^[n] ⟨pushed, s.sum⟩).buf.newestTime = t
    rw [hbuf, TimedBuffer.popleftT_iter_drop]
    show ((pushed.times.drop n).getLast?).getD 0 = t
    have hle : n ≤ s.buf.times.length := by
      rw [hn, hp]
      exact TimedBuffer.numStale_concat_le s.buf t x htgt true
    have hq : pushed.times = s.buf.times ++ [t] := rfl
    rw [hq, List.drop_append_eq_append_drop]
    have h0 : n - s.buf.times.length = 0 := by omega
    rw [h0, List.drop_zero]
    simp
  · obtain ⟨hbuf, -⟩ := TimedRunningSum.popleftT_iter_sum n ⟨pushed, s.sum⟩
    show (TimedRunningSum.popleftT^[n] ⟨pushed, s.sum⟩).buf.target = s.buf.target
    rw [hbuf, TimedBuffer.popleftT_iter_drop]
  · obtain ⟨hbuf, -⟩ := TimedRunningSum.popleftT_iter_sum n ⟨pushed, s.sum⟩
    show (TimedRunningSum.popleftT^[n] ⟨pushed, s.sum⟩).buf.keepOne = s.buf.keepOne
    rw [hbuf, TimedBuffer.popleftT_iter_drop]

theorem CCDMonitor.trim_diag (d : ℚ) (hd : 0 < d) :
    ∀ (n : ℕ) (b : TimedRunningSum ℚ),
      (CCDMonitor.trim n d (b, b)).1 = (CCDMonitor.trim n d (b, b)).2 ∧
      (CCDMonitor.trim n d (b, b)).1.buf.newestTime = b.buf.newestTime ∧
      (CCDMonitor.trim n d (b, b)).1.buf.target = b.buf.target := by
  intro n
  induction n with
  | zero => intro b; exact ⟨rfl, rfl, rfl⟩
  | succ n ih =>
    intro b
    have hstep : CCDMonitor.trim (n + 1) d (b, b)
        = if d < b.buf.elapsedTime then CCDMonitor.trim n d (b.popleftT, b.popleftT)
          else (b, b) := rfl
    rw [hstep]
    by_cases hcond : d < b.buf.elapsedTime
    · rw [if_pos hcond]
      obtain ⟨ih1, ih2, ih3⟩ := ih b.popleftT
      refine ⟨ih1, ?_, ?_⟩
      · rw [ih2]
        have hlen : ¬ b.buf.times.length < 2 := by
          intro hl
          have hz : b.buf.elapsedTime = 0 := by
            simp [TimedBuffer.elapsedTime, hl]
          rw [hz] at hcond
          linarith
        cases hts : b.buf.times with
        | nil => exfalso; rw [hts] at hlen; simp at hlen
        | cons a1 rest1 =>
          cases hrest : rest1 with
          | nil => exfalso; rw [hts, hrest] at hlen; simp at hlen
          | cons a2 rest =>
            show ((b.buf.times.tail).getLast?).getD 0 = ((b.buf.times).getLast?).getD 0
            rw [hts, hrest]
            simp [List.getLast?_cons_cons]
      · exact ih3
    · rw [if_neg hcond]
      exact ⟨rfl, rfl, rfl⟩

theorem CCDMonitor.calc_consistent_step (r t : ℚ) (s : CCDState)
    (hA : s.rateIntegral = s.biasSamples)
    (htgt : 0 ≤ s.biasSamples.buf.target)
    (hmax : 0 < s.maxDeltaT)
    (hcase : (s.lastRate = none ∧ s.lastTime = none ∧ s.biasSamples.buf.times = []) ∨
       (∃ lt, s.lastRate = some r ∧ s.lastTime = some lt ∧ 0 ≤ lt ∧
         s.biasSamples.buf.newestTime ≤ lt ∧ lt < t))
    (ht0 : 0 ≤ t) :
    ∃ o s', CCDMonitor.calcMetric s
        ⟨some t, some true, some 0, some r, some (r * (t - ((s.lastTime).getD t))),
          none, none⟩ = .ok (o, s') ∧
      (o = none ∨ o = some 0) ∧
      s'.rateIntegral = s'.biasSamples ∧
      0 ≤ s'.biasSamples.buf.target ∧
      s'.maxDeltaT = s.maxDeltaT ∧
      s'.lastRate = some r ∧ s'.lastTime = some t ∧
      s'.biasSamples.buf.newestTime ≤ t := by
  rcases hcase with ⟨hr, hltnone, hempty⟩ | ⟨lt, hr, hlt, hlt0, hnewle, hltt⟩
  · refine ⟨none, { s with lastTime := some t, lastRate := some r }, ?_, Or.inl rfl,
      hA, htgt, rfl, rfl, rfl, ?_⟩
    · simp only [CCDMonitor.calcMetric, hr, Option.getD_some]
    · show ((s.biasSamples.buf.times.getLast?).getD 0) ≤ t
      rw [hempty]
      simpa using ht0
  · have hnew : ¬ t < s.biasSamples.buf.newestTime := by
      intro hcon
      linarith
    obtain ⟨B, hBappend, hBnew, hBtgt, -⟩ :=
      TimedRunningSum.append_ok_newest s.biasSamples t (r * (t - lt)) htgt hnew
    have hterm : s.rateIntegral.append t ((r + r) / 2 * (t - lt)) = .ok B := by
      have harith : (r + r) / 2 * (t - lt) = r * (t - lt) := by ring
      rw [hA, harith]
      exact hBappend
    obtain ⟨hdg1, hdg2, hdg3⟩ :=
      CCDMonitor.trim_diag s.maxDeltaT hmax B.buf.times.length B
    set strim := CCDMonitor.trim B.buf.times.length s.maxDeltaT (B, B) with hst
    set s2 : CCDState := { s with biasSamples := strim.1, rateIntegral := strim.2
                                  lastRate := some r, lastTime := some t } with hs2
    have hred : CCDMonitor.calcMetric s
        ⟨some t, some true, some 0, some r, some (r * (t - ((s.lastTime).getD t))),
          none, none⟩
        = (if strim.1.buf.elapsedTime < strim.1.buf.target
           then .ok (none, s2)
           else .ok (some |strim.1.sum - strim.2.sum|, s2)) := by
      simp only [CCDMonitor.calcMetric, hr, hlt, Option.getD_some]
      rw [hBappend, hterm]
    have hs2bias : s2.biasSamples = strim.1 := rfl
    have hs2rate : s2.rateIntegral = strim.2 := rfl
    by_cases hcond : strim.1.buf.elapsedTime < strim.1.buf.target
    · refine ⟨none, s2, ?_, Or.inl rfl, ?_, ?_, rfl, rfl, rfl, ?_⟩
      · rw [hred, if_pos hcond]
      · rw [hs2bias, hs2rate]
        exact hdg1.symm
      · rw [hs2bias, hdg3, hBtgt]
        exact htgt
      · rw [hs2bias, hdg2, hBnew]
    · refine ⟨some 0, s2, ?_, Or.inr rfl, ?_, ?_, rfl, rfl, rfl, ?_⟩
      · rw [hred, if_neg hcond, hdg1]
        simp
      · rw [hs2bias, hs2rate]
        exact hdg1.symm
      · rw [hs2bias, hdg3, hBtgt]
        exact htgt
      · rw [hs2bias, hdg2, hBnew]

theorem CCDMonitor.consistentRun_aux (r : ℚ) :
    ∀ (ts : List ℚ) (s : CCDState),
      List.Pairwise (· < ·) ts → (∀ u ∈ ts, 0 ≤ u) →
      (∀ lt, s.lastTime = some lt → ∀ u ∈ ts, lt < u) →
      s.rateIntegral = s.biasSamples →
      0 ≤ s.biasSamples.buf.target → 0 < s.maxDeltaT →
      ((s.lastRate = none ∧ s.lastTime = none ∧ s.biasSamples.buf.times = []) ∨
       (∃ lt, s.lastRate = some r ∧ s.lastTime = some lt ∧ 0 ≤ lt ∧
         s.biasSamples.buf.newestTime ≤ lt)) →
      ∃ outs s', CCDMonitor.consistentRun r s ts = .ok (outs, s') ∧
        ∀ o ∈ outs, o = none ∨ o = some 0 := by
  intro ts
  induction ts with
  | nil =>
    intro s _ _ _ _ _ _ _
    exact ⟨[], s, rfl, by simp⟩
  | cons t rest ih =>
    intro s hpw h0 hprev hA htgt hmax hcase
    rw [List.pairwise_cons] at hpw
    have ht0 : 0 ≤ t := h0 t (by simp)
    have hcase' : (s.lastRate = none ∧ s.lastTime = none ∧ s.biasSamples.buf.times = []) ∨
        (∃ lt, s.lastRate = some r ∧ s.lastTime = some lt ∧ 0 ≤ lt ∧
          s.biasSamples.buf.newestTime ≤ lt ∧ lt < t) := by
      rcases hcase with h | ⟨lt, h1, h2, h3, h4⟩
      · exact Or.inl h
      · exact Or.inr ⟨lt, h1, h2, h3, h4, hprev lt h2 t (by simp)⟩
    obtain ⟨o, s1, hstep, ho, hA1, htgt1, hmaxeq, hrate1, htime1, hnew1⟩ :=
      CCDMonitor.calc_consistent_step r t s hA htgt hmax hcase' ht0
    obtain ⟨outs, s', hrest, hall⟩ := ih s1 hpw.2
      (by intro u hu; exact h0 u (by simp [hu]))
      (by
        intro lt hlt u hu
        rw [htime1] at hlt
        cases hlt
        exact hpw.1 u hu)
      hA1 htgt1 (by rw [hmaxeq]; exact hmax)
      (Or.inr ⟨t, hrate1, htime1, ht0, hnew1⟩)
    refine ⟨o :: outs, s', ?_, ?_⟩
    · show (match CCDMonitor.calcMetric s
          ⟨some t, some true, some 0, some r, some (r * (t - ((s.lastTime).getD t))),
            none, none⟩ with
        | Except.error e => (Except.error e : Except String (List (Option ℚ) × CCDState))
        | Except.ok (o, s') =>
          match CCDMonitor.consistentRun r s' rest with
          | Except.error e => Except.error e
          | Except.ok (os, s'') => Except.ok (o :: os, s'')) = Except.ok (o :: outs, s')
      rw [hstep]
      dsimp only
      rw [hrest]
    · intro o' ho'
      rcases List.mem_cons.mp ho' with rfl | h
      · exact ho
      · exact hall o' h

/-- C5: feeding the CCD metric pipeline a stream of accepted messages from a
consistent clock — constant clock rate `r`, with each message's `clock_bias`
equal to `r` times the time step from the previous sample — never raises, and
every metric it produces once the window fills is exactly 0 (the
trapezoidal-rate-integral sum cancels the bias-delta sum in exact
arithmetic). -/
theorem claim_C5_ccd_consistent_clock_zero :
    ∀ (r minDt maxDt : ℚ) (ts : List ℚ),
      0 ≤ minDt → 0 < maxDt → List.Pairwise (· < ·) ts → (∀ u ∈ ts, 0 ≤ u) →
      ∃ outs s',
        CCDMonitor.consistentRun r (CCDState.init minDt maxDt) ts = .ok (outs, s') ∧
        ∀ o ∈ outs, o = none ∨ o = some 0 := by
  intro r minDt maxDt ts hmin hmax hpw h0
  refine CCDMonitor.consistentRun_aux r ts (CCDState.init minDt maxDt) hpw h0 ?_ rfl ?_ ?_ ?_
  · intro lt hlt
    simp [CCDState.init] at hlt
  · simpa [CCDState.init, TimedRunningSum.empty, TimedBuffer.empty] using hmin
  · exact hmax
  · exact Or.inl ⟨rfl, rfl, rfl⟩

/-- Witness for C5: a consistent clock with rate 1 sampled at times
0, 10, 20, 35, 45 against a CCD monitor with `min_delta_t = 30`,
`max_delta_t = 40` runs without error and only ever produces the metric 0. -/
theorem claim_C5_witness :
    ((0 : ℚ) ≤ 30 ∧ (0 : ℚ) < 40 ∧
      List.Pairwise (· < ·) ([0, 10, 20, 35, 45] : List ℚ) ∧
      (∀ u ∈ ([0, 10, 20, 35, 45] : List ℚ), 0 ≤ u)) ∧
    (∃ outs s',
      CCDMonitor.consistentRun 1 (CCDState.init 30 40) [0, 10, 20, 35, 45]
        = .ok (outs, s') ∧ ∀ o ∈ outs, o = none ∨ o = some 0) :=
  ⟨⟨by norm_num, by norm_num, by norm_num [List.pairwise_cons],
    by intro u hu; simp at hu; rcases hu with rfl | rfl | rfl | rfl | rfl <;> norm_num⟩,
   claim_C5_ccd_consistent_clock_zero 1 30 40 [0, 10, 20, 35, 45] (by norm_num)
     (by norm_num) (by norm_num [List.pairwise_cons])
     (by intro u hu; simp at hu; rcases hu with rfl | rfl | rfl | rfl | rfl <;> norm_num)⟩

/-- C6 (the code contradicts it for the threshold monitor): in
`CnoThresholdJammingMonitor._calculate_metric` an sv entry with `cno <= 0`
(or `qualityInd < 4`) raises `AttributeError` — the skip branch calls
`self.logger.deubg`, a typo for `debug` — and an entry with a missing field
raises `KeyError`, because the missing-field check logs but has no
`continue`.  `CnoDropJammingMonitor` does skip both kinds of entry and keeps
processing the remaining entries, as the claim describes. -/
theorem claim_C6_cn0_invalid_entries :
    CnoThresholdJammingMonitor.calcMetric 5 []
      ⟨some 1, some true, some 0, none, none, none,
        some [⟨some 1, some 0, some 0, some 5⟩]⟩
      = .error "AttributeError" ∧
    CnoThresholdJammingMonitor.processAll 1 [] [⟨some 1, some 0, none, some 5⟩]
      = .error "KeyError" ∧
    CnoDropJammingMonitor.calcMetric 5 (-1) ⟨[], []⟩
      ⟨some 1, some true, some 0, none, none, none,
        some [⟨some 1, some 0, some 0, some 5⟩, ⟨some 1, some 0, none, some 5⟩,
              ⟨some 2, some 0, some 30, some 5⟩]⟩
      = .ok (none, ⟨[((0, 2), ⟨[1], [30], 5, false⟩)], [((0, 2), none)]⟩) := by
  refine ⟨?_, ?_, ?_⟩
  · norm_num [CnoThresholdJammingMonitor.calcMetric, CnoThresholdJammingMonitor.processAll,
      CnoThresholdJammingMonitor.processSv]
  · norm_num [CnoThresholdJammingMonitor.processAll, CnoThresholdJammingMonitor.processSv]
  · norm_num [CnoDropJammingMonitor.calcMetric, CnoDropJammingMonitor.processAll,
      CnoDropJammingMonitor.processSv, CnoDropJammingMonitor.scanChannels,
      dictGet, dictSet, TimedBuffer.append, TimedBuffer.empty, TimedBuffer.newestTime,
      TimedBuffer.removeOldSamples, TimedBuffer.numStale, TimedBuffer.popleftT,
      List.takeWhile, Prod.ext_iff]

/-- C7 (the code contradicts its last part): the threshold monitor's update
that performs an invalidation behaves as claimed — the stale channel is set
to `None` and the metric is the maximum cno among still-valid channels — but
the *next* update raises `TypeError` when its final loop unpacks the `None`
left behind, instead of continuing to exclude the channel. -/
theorem claim_C7_threshold_invalidation_then_crash :
    CnoThresholdJammingMonitor.calcMetric 5 []
      ⟨some 0, some true, some 0, none, none, none,
        some [⟨some 1, some 0, some 30, some 5⟩]⟩
      = .ok (some 30, [((0, 1), some (0, 30))]) ∧
    CnoThresholdJammingMonitor.calcMetric 5 [((0, 1), some (0, 30))]
      ⟨some 10, some true, some 0, none, none, none,
        some [⟨some 2, some 0, some 30, some 5⟩]⟩
      = .ok (some 30, [((0, 1), none), ((0, 2), some (10, 30))]) ∧
    CnoThresholdJammingMonitor.calcMetric 5 [((0, 1), none), ((0, 2), some (10, 30))]
      ⟨some 11, some true, some 0, none, none, none,
        some [⟨some 2, some 0, some 31, some 5⟩]⟩
      = .error "TypeError" := by
  refine ⟨?_, ?_, ?_⟩ <;>
    norm_num [CnoThresholdJammingMonitor.calcMetric, CnoThresholdJammingMonitor.processAll,
      CnoThresholdJammingMonitor.processSv, CnoThresholdJammingMonitor.scanCnos,
      dictGet, dictSet, Prod.ext_iff]

/-- C10 (the code contradicts it): after `reset()` sets `_last_update = None`
(where `__init__` used `-inf`), the next update with a well-formed, accepted
`ecef_position` message raises `TypeError` inside `_calculate_metric` at the
comparison `newest_time > self._last_update`, instead of returning a value. -/
theorem claim_C10_dual_update_after_reset_raises :
    Monitor.update (DualAntennaDistanceMonitor.cfg dualCfgC10)
      (Monitor.reset (DualAntennaDistanceMonitor.cfg dualCfgC10)
        (DualAntennaDistanceMonitor.init dualCfgC10 2))
      dualMsgC10 = .error "TypeError" := by
  norm_num [Monitor.update, Monitor.reset, Monitor.verifyMessage, dualCfgC10, dualMsgC10,
    DualAntennaDistanceMonitor.cfg, DualAntennaDistanceMonitor.init,
    DualAntennaDistanceMonitor.verifyMessage, DualAntennaDistanceMonitor.calcMetric,
    StubPosMonitor.cfg, StubPosMonitor.calcMetric, PyLastUpdate.ltTest,
    TimedRunningSum.empty, TimedRunningSum.append, TimedRunningSum.popleftT,
    TimedBuffer.empty, TimedBuffer.newestTime, TimedBuffer.numStale,
    TimedBuffer.popleftT, TimedBuffer.elapsedTime, List.takeWhile, Except.map]

/-- C8: for every accepted dual-antenna message (routed to the sub-monitor
matching its receiver id, with that sub-monitor's update outcome given), a
combined metric is produced exactly when both sub-monitors' newest-sample
times are strictly past the last combined-computation time and both hold at
least `minimum_samples` entries; when produced, the stored (squared) metric is
the squared Euclidean distance between the two window-average positions
(`vecScale len sum` is the average) and `_last_update` advances to the message
time; otherwise nothing but the routed sub-monitor changes.  The second
conjunct characterizes the inverted alarm: for the positive thresholds the
setter enforces, the alarm is true exactly when the Euclidean distance
(`Real.sqrt` of the stored square) is at most the threshold.  The third
conjunct identifies `sqNorm` of a difference vector with the squared
coordinate distance over `ℝ`. -/
theorem claim_C8_dual_antenna_combined_metric :
    (∀ (c : DualCfgData) (sub : DualSub) (msg : Message) (t : ℚ) (rcv : ℕ)
      (o : Option Bool) (r1 r2 : MonitorState StubSub Vec3) (b1 b2 : Bool),
      msg.rxTime = some t → msg.receiverId = some rcv →
      ((rcv = c.rid1 ∧
        Monitor.update (StubPosMonitor.cfg c.rid1 c.monitorTimeout c.timeRange
          c.stubCompare) sub.rx1 msg = .ok (o, r1) ∧ r2 = sub.rx2) ∨
       (¬ rcv = c.rid1 ∧ rcv = c.rid2 ∧
        Monitor.update (StubPosMonitor.cfg c.rid2 c.monitorTimeout c.timeRange
          c.stubCompare) sub.rx2 msg = .ok (o, r2) ∧ r1 = sub.rx1)) →
      sub.lastUpdate.ltTest r1.sub.samples.buf.newestTime = .ok b1 →
      sub.lastUpdate.ltTest r2.sub.samples.buf.newestTime = .ok b2 →
      ((¬ (b1 = true ∧ b2 = true) →
        DualAntennaDistanceMonitor.calcMetric c sub msg
          = .ok (none, ⟨r1, r2, sub.lastUpdate⟩)) ∧
       (b1 = true → b2 = true →
        ((r1.sub.samples.buf.times.length < c.minSamples ∨
          r2.sub.samples.buf.times.length < c.minSamples) →
          DualAntennaDistanceMonitor.calcMetric c sub msg
            = .ok (none, ⟨r1, r2, sub.lastUpdate⟩)) ∧
        (c.minSamples ≤ r1.sub.samples.buf.times.length →
         c.minSamples ≤ r2.sub.samples.buf.times.length →
          DualAntennaDistanceMonitor.calcMetric c sub msg
            = .ok (some (sqNorm
                (vecScale (r1.sub.samples.buf.times.length : ℚ) r1.sub.samples.sum
                  - vecScale (r2.sub.samples.buf.times.length : ℚ) r2.sub.samples.sum)),
              ⟨r1, r2, .val t⟩))))) ∧
    (∀ msq thr : ℚ, 0 ≤ msq → 0 < thr →
      (DualAntennaDistanceMonitor.compareMetric msq thr = true ↔
        Real.sqrt ((msq : ℝ)) ≤ ((thr : ℝ)))) ∧
    (∀ a b : Vec3, ((sqNorm (a - b) : ℚ) : ℝ)
      = (((a.1 : ℝ) - (b.1 : ℝ)) ^ 2 + ((a.2.1 : ℝ) - (b.2.1 : ℝ)) ^ 2
        + ((a.2.2 : ℝ) - (b.2.2 : ℝ)) ^ 2)) := by
  refine ⟨?_, ?_, ?_⟩
  · intro c sub msg t rcv o r1 r2 b1 b2 h1 h2 hroute hb1 hb2
    have hrcv_mem : ¬ (rcv ≠ c.rid1 ∧ rcv ≠ c.rid2) := by
      rcases hroute with ⟨hrcv, -, -⟩ | ⟨-, hrcv, -, -⟩ <;> tauto
    have hrouted : (if rcv = c.rid1 then
          (Monitor.update (StubPosMonitor.cfg c.rid1 c.monitorTimeout c.timeRange
              c.stubCompare) sub.rx1 msg).map (fun pr => (pr.2, sub.rx2))
        else
          (Monitor.update (StubPosMonitor.cfg c.rid2 c.monitorTimeout c.timeRange
              c.stubCompare) sub.rx2 msg).map (fun pr => (sub.rx1, pr.2)))
        = .ok (r1, r2) := by
      rcases hroute with ⟨hrcv, hupd, hr2⟩ | ⟨hne, hrcv, hupd, hr1⟩
      · rw [if_pos hrcv, hupd, hr2]
        rfl
      · rw [if_neg hne, hupd, hr1]
        rfl
    cases b1 with
    | false =>
      have hcalc : DualAntennaDistanceMonitor.calcMetric c sub msg
          = .ok (none, ⟨r1, r2, sub.lastUpdate⟩) := by
        simp only [DualAntennaDistanceMonitor.calcMetric, h1, h2, Option.getD_some]
        rw [if_neg hrcv_mem, hrouted]
        dsimp only
        rw [hb1]
        simp
      refine ⟨fun _ => hcalc, fun hb => by simp at hb⟩
    | true =>
      cases b2 with
      | false =>
        have hcalc : DualAntennaDistanceMonitor.calcMetric c sub msg
            = .ok (none, ⟨r1, r2, sub.lastUpdate⟩) := by
          simp only [DualAntennaDistanceMonitor.calcMetric, h1, h2, Option.getD_some]
          rw [if_neg hrcv_mem, hrouted]
          dsimp only
          rw [hb1]
          dsimp only
          rw [hb2]
          simp
        refine ⟨fun _ => hcalc, fun _ hb => by simp at hb⟩
      | true =>
        have hcalc : DualAntennaDistanceMonitor.calcMetric c sub msg
            = (if r1.sub.samples.buf.times.length < c.minSamples ∨
                  r2.sub.samples.buf.times.length < c.minSamples
               then .ok (none, ⟨r1, r2, sub.lastUpdate⟩)
               else .ok (some (sqNorm
                  (vecScale (r1.sub.samples.buf.times.length : ℚ) r1.sub.samples.sum
                    - vecScale (r2.sub.samples.buf.times.length : ℚ) r2.sub.samples.sum)),
                 ⟨r1, r2, .val t⟩)) := by
          simp only [DualAntennaDistanceMonitor.calcMetric, h1, h2, Option.getD_some]
          rw [if_neg hrcv_mem, hrouted]
          dsimp only
          rw [hb1]
          dsimp only
          rw [hb2]
          simp
        refine ⟨fun hcon => absurd ⟨rfl, rfl⟩ hcon, fun _ _ => ⟨?_, ?_⟩⟩
        · intro hlen
          rw [hcalc, if_pos hlen]
        · intro hm1 hm2
          rw [hcalc, if_neg ?_]
          push_neg
          exact ⟨hm1, hm2⟩
  · intro msq thr hmsq hthr
    have hthrR : (0 : ℝ) < (thr : ℝ) := by exact_mod_cast hthr
    have hmsqR : (0 : ℝ) ≤ (msq : ℝ) := by exact_mod_cast hmsq
    unfold DualAntennaDistanceMonitor.compareMetric
    rw [decide_eq_true_iff]
    constructor
    · intro h
      have hR : (msq : ℝ) ≤ (thr : ℝ) ^ 2 := by exact_mod_cast h
      have := Real.sqrt_le_sqrt hR
      rwa [Real.sqrt_sq (le_of_lt hthrR)] at this
    · intro h
      have hs := Real.sq_sqrt hmsqR
      have hnn := Real.sqrt_nonneg ((msq : ℝ))
      have hR : (msq : ℝ) ≤ (thr : ℝ) ^ 2 := by nlinarith
      exact_mod_cast hR
  · intro a b
    unfold sqNorm
    push_cast [Prod.fst_sub, Prod.snd_sub]
    ring

/-- Witness for C8: a dual-antenna monitor with `minimum_samples = 1`, both
sub-monitors holding one sample at time 0 and `_last_update = -inf`, fed an
accepted position message for receiver 1 at time 1, produces the combined
(squared) metric of the two window averages and records the update time. -/
theorem claim_C8_witness :
    (dualMsgC10.rxTime = some 1 ∧ dualMsgC10.receiverId = some 1 ∧
     Monitor.update (StubPosMonitor.cfg dualCfgC8.rid1 dualCfgC8.monitorTimeout
        dualCfgC8.timeRange dualCfgC8.stubCompare) dualSubC8.rx1 dualMsgC10
        = .ok (some false, rx1AfterC8) ∧
     dualSubC8.lastUpdate.ltTest rx1AfterC8.sub.samples.buf.newestTime = .ok true ∧
     dualSubC8.lastUpdate.ltTest dualSubC8.rx2.sub.samples.buf.newestTime = .ok true ∧
     dualCfgC8.minSamples ≤ rx1AfterC8.sub.samples.buf.times.length ∧
     dualCfgC8.minSamples ≤ dualSubC8.rx2.sub.samples.buf.times.length) ∧
    DualAntennaDistanceMonitor.calcMetric dualCfgC8 dualSubC8 dualMsgC10
      = .ok (some (sqNorm
          (vecScale (rx1AfterC8.sub.samples.buf.times.length : ℚ) rx1AfterC8.sub.samples.sum
            - vecScale (dualSubC8.rx2.sub.samples.buf.times.length : ℚ)
                dualSubC8.rx2.sub.samples.sum)),
        ⟨rx1AfterC8, dualSubC8.rx2, .val 1⟩) := by
  have hupd : Monitor.update (StubPosMonitor.cfg dualCfgC8.rid1 dualCfgC8.monitorTimeout
      dualCfgC8.timeRange dualCfgC8.stubCompare) dualSubC8.rx1 dualMsgC10
      = .ok (some false, rx1AfterC8) := by
    norm_num [Monitor.update, Monitor.verifyMessage, StubPosMonitor.cfg,
      StubPosMonitor.calcMetric, dualCfgC8, dualSubC8, dualMsgC10, rx1AfterC8,
      TimedRunningSum.append, TimedRunningSum.popleftT, TimedBuffer.newestTime,
      TimedBuffer.oldestTime, TimedBuffer.numStale, TimedBuffer.popleftT,
      TimedBuffer.elapsedTime, List.takeWhile, Prod.ext_iff]
  have hb1 : dualSubC8.lastUpdate.ltTest rx1AfterC8.sub.samples.buf.newestTime
      = .ok true := rfl
  have hb2 : dualSubC8.lastUpdate.ltTest dualSubC8.rx2.sub.samples.buf.newestTime
      = .ok true := rfl
  have hlen1 : dualCfgC8.minSamples ≤ rx1AfterC8.sub.samples.buf.times.length := by
    norm_num [dualCfgC8, rx1AfterC8]
  have hlen2 : dualCfgC8.minSamples ≤ dualSubC8.rx2.sub.samples.buf.times.length := by
    norm_num [dualCfgC8, dualSubC8]
  exact ⟨⟨rfl, rfl, hupd, hb1, hb2, hlen1, hlen2⟩,
    ((claim_C8_dual_antenna_combined_metric.1 dualCfgC8 dualSubC8 dualMsgC10 1 1
      (some false) rx1AfterC8 dualSubC8.rx2 true true rfl rfl
      (Or.inl ⟨rfl, hupd, rfl⟩) hb1 hb2).2 rfl rfl).2 hlen1 hlen2⟩
